import Mathlib

/-!
Verification of the ESP-Knowledge server against its specification.

The data model and operations below are a shallow embedding of the
TypeScript server (`server/routes.ts`, `server/storage.ts`, the auth
module) into Lean.  Database tables become lists of rows, the Drizzle
queries become list operations, fallible effects become `Except`, and the
route handlers become pure functions from a `Storage` state and request
data to a response (and possibly a new state).  Row ordering clauses
(`orderBy`) and timestamps are abstracted away: theorems about query
results are stated up to the stored order or via membership.

The `permission_type` column is a `varchar(50)` in the migration; the
shared Zod schema (not part of the repository snapshot) restricts it to
the enumeration `read`/`write`/`none` described by the specification, so
the embedding keeps the column as `String` exactly as the server compares
it, and theorems that need validity assume membership in that enumeration.
-/

namespace KB

/-- A user row (`users` table): only the columns the server logic reads. -/
structure User where
  id : Nat
  email : String
  passwordHash : String
  role : String
  deriving DecidableEq

/-- A category row (`categories` table). -/
structure Category where
  id : Nat
  name : String
  description : Option String
  parentId : Option Nat
  createdBy : Option Nat
  deriving DecidableEq

/-- An article row (`articles` table). -/
structure Article where
  id : Nat
  title : String
  content : String
  categoryId : Option Nat
  authorId : Option Nat
  isPublished : Bool
  deriving DecidableEq

/-- A permission row (`permissions` table): ternary relation between a
user, a category and a permission type string. -/
structure Permission where
  id : Nat
  userId : Nat
  categoryId : Nat
  permissionType : String
  deriving DecidableEq

/-- A file metadata row (`files` table, plus the `categoryId` column the
routes and the spec use). -/
structure KFile where
  id : Nat
  filename : String
  originalName : String
  filePath : String
  fileType : String
  fileSize : Nat
  uploadedBy : Option Nat
  articleId : Option Nat
  categoryId : Option Nat
  deriving DecidableEq

/-- The database state: one list of rows per table. -/
structure Storage where
  users : List User
  categories : List Category
  articles : List Article
  permissions : List Permission
  files : List KFile
  deriving DecidableEq

/-- `DatabaseStorage.getUser`: select the user row with the given id. -/
def getUser (s : Storage) (id : Nat) : Option User :=
  s.users.find? (fun u => u.id == id)

/-- `DatabaseStorage.getCategories`: all category rows. -/
def getCategories (s : Storage) : List Category :=
  s.categories

/-- `DatabaseStorage.getUserCategoryPermission`: the unique permission row
for a (user, category) pair, if any. -/
def getUserCategoryPermission (s : Storage) (userId categoryId : Nat) :
    Option Permission :=
  s.permissions.find? (fun p => p.userId == userId && p.categoryId == categoryId)

/-- `DatabaseStorage.getUserPermissions`: all permission rows of a user. -/
def getUserPermissions (s : Storage) (userId : Nat) : List Permission :=
  s.permissions.filter (fun p => p.userId == userId)

/-- The `WHERE` clause of `DatabaseStorage.getCategoriesByUser`: the
permission row joins the user to the category and its type is one of the
three strings the query lists. -/
def categoriesByUserMatch (userId : Nat) (c : Category) (p : Permission) : Bool :=
  p.categoryId == c.id && p.userId == userId &&
    (p.permissionType == "read" || p.permissionType == "write" ||
      p.permissionType == "admin")

/-- `DatabaseStorage.getCategoriesByUser`: inner join of `categories` with
`permissions`, keeping the join's row multiplicity (one output row per
matching permission row). -/
def getCategoriesByUser (s : Storage) (userId : Nat) : List Category :=
  s.categories.flatMap (fun c =>
    (s.permissions.filter (categoriesByUserMatch userId c)).map (fun _ => c))

/-- Data accepted by `insertCategorySchema` for category creation. -/
structure InsertCategory where
  name : String
  description : Option String
  parentId : Option Nat
  createdBy : Option Nat
  deriving DecidableEq

/-- `DatabaseStorage.createCategory`: insert one category row with a fresh
serial id and return it.  No other table is touched. -/
def createCategory (s : Storage) (newId : Nat) (d : InsertCategory) :
    Category × Storage :=
  let c : Category :=
    { id := newId, name := d.name, description := d.description,
      parentId := d.parentId, createdBy := d.createdBy }
  (c, { s with categories := s.categories ++ [c] })

/-- Response of the `POST /api/categories` handler. -/
inductive CreateCategoryResponse
  | forbidden
  | created (c : Category)
  deriving DecidableEq

/-- The `POST /api/categories` handler: `requireAdmin` middleware (403 when
the caller is missing or not an admin), then `storage.createCategory`. -/
def postCategoriesRoute (s : Storage) (callerId newId : Nat)
    (d : InsertCategory) : CreateCategoryResponse × Storage :=
  match getUser s callerId with
  | none => (.forbidden, s)
  | some u =>
    if u.role != "admin" then (.forbidden, s)
    else
      let (c, s2) := createCategory s newId d
      (.created c, s2)

/-- Response of the `GET /api/categories` handler. -/
inductive CategoriesResponse
  | notFound
  | ok (cs : List Category)
  deriving DecidableEq

/-- The `GET /api/categories` handler: 404 when the session user row is
missing; all rows for an admin; the permission join for everyone else. -/
def getCategoriesRoute (s : Storage) (userId : Nat) : CategoriesResponse :=
  match getUser s userId with
  | none => .notFound
  | some u =>
    if u.role == "admin" then .ok (getCategories s)
    else .ok (getCategoriesByUser s userId)

/-- `DatabaseStorage.getArticles`: all article rows. -/
def getArticles (s : Storage) : List Article :=
  s.articles

/-- `DatabaseStorage.getPublishedArticles`: rows with `isPublished = true`. -/
def getPublishedArticles (s : Storage) : List Article :=
  s.articles.filter (fun a => a.isPublished)

/-- `DatabaseStorage.getArticlesByCategory`. -/
def getArticlesByCategory (s : Storage) (categoryId : Nat) : List Article :=
  s.articles.filter (fun a => a.categoryId == some categoryId)

/-- `DatabaseStorage.searchArticles`: case-insensitive substring match on
title or content (`ilike '%q%'`). -/
def searchArticles (s : Storage) (q : String) : List Article :=
  s.articles.filter (fun a =>
    decide (List.IsInfix q.toLower.data a.title.toLower.data) ||
    decide (List.IsInfix q.toLower.data a.content.toLower.data))

/-- The permission post-filter the article routes apply for non-admin
users: keep an article only when some permission row of the user has a
type other than `none` and matches the article's category. -/
def articlePermFilter (s : Storage) (userId : Nat) (articles : List Article) :
    List Article :=
  let allowedCategoryIds :=
    ((getUserPermissions s userId).filter
      (fun p => p.permissionType != "none")).map (fun p => p.categoryId)
  articles.filter (fun a =>
    match a.categoryId with
    | some cid => allowedCategoryIds.contains cid
    | none => false)

/-- Response of the `GET /api/articles` handler. -/
inductive ArticlesResponse
  | notFound
  | ok (articles : List Article)
  deriving DecidableEq

/-- The `GET /api/articles` handler: dispatch on the `search` and
`categoryId` query parameters, then the non-admin permission post-filter. -/
def getArticlesRoute (s : Storage) (userId : Nat) (search : Option String)
    (categoryId : Option Nat) : ArticlesResponse :=
  match getUser s userId with
  | none => .notFound
  | some u =>
    let articles :=
      match search with
      | some q => searchArticles s q
      | none =>
        match categoryId with
        | some cid => getArticlesByCategory s cid
        | none =>
          if u.role == "admin" then getArticles s else getPublishedArticles s
    if u.role != "admin" then .ok (articlePermFilter s userId articles)
    else .ok articles

/-- `DatabaseStorage.getFiles`: all file rows. -/
def getFiles (s : Storage) : List KFile :=
  s.files

/-- `DatabaseStorage.getFilesByArticle`. -/
def getFilesByArticle (s : Storage) (articleId : Nat) : List KFile :=
  s.files.filter (fun f => f.articleId == some articleId)

/-- `DatabaseStorage.getFilesByCategory`: join of `files` with `articles`
on `articleId`, filtered by the article's category. -/
def getFilesByCategory (s : Storage) (categoryId : Nat) : List KFile :=
  s.files.filter (fun f =>
    match f.articleId with
    | some aid =>
      (s.articles.find? (fun a => a.id == aid)).elim false
        (fun a => a.categoryId == some categoryId)
    | none => false)

/-- `DatabaseStorage.getFile`. -/
def getFile (s : Storage) (id : Nat) : Option KFile :=
  s.files.find? (fun f => f.id == id)

/-- The `GET /api/files` handler body: dispatch on query parameters.  With
no parameters it returns every file row; it never consults the session
user, a role, or the permission table. -/
def getFilesRoute (s : Storage) (categoryId articleId : Option Nat) :
    List KFile :=
  match articleId with
  | some aid => getFilesByArticle s aid
  | none =>
    match categoryId with
    | some cid => getFilesByCategory s cid
    | none => getFiles s

/-- Response of the `GET /api/files/:id` handler. -/
inductive FileResponse
  | notFound
  | forbidden
  | ok (f : KFile)
  deriving DecidableEq

/-- The `GET /api/files/:id` handler: 404 when the row is missing; deny a
present non-admin user a file that has a category on which the user's
permission row is absent or `none`; otherwise serve the row.  (When the
session user row cannot be fetched the source's `user &&` guard skips the
check entirely.) -/
def getFileRoute (s : Storage) (userId fileId : Nat) : FileResponse :=
  match getFile s fileId with
  | none => .notFound
  | some f =>
    match getUser s userId with
    | none => .ok f
    | some u =>
      if u.role != "admin" then
        match f.categoryId with
        | some cid =>
          match getUserCategoryPermission s userId cid with
          | none => .forbidden
          | some p =>
            if p.permissionType == "none" then .forbidden else .ok f
        | none => .ok f
      else .ok f

/-- The multipart payload of `POST /api/files/upload` after multer. -/
structure UploadRequest where
  originalname : String
  path : String
  mimetype : String
  size : Nat
  articleId : Option Nat
  categoryId : Option Nat
  deriving DecidableEq

/-- Response of the `POST /api/files/upload` handler. -/
inductive UploadResponse
  | badRequest
  | forbidden
  | created (f : KFile)
  deriving DecidableEq

/-- The `POST /api/files/upload` handler: 400 with no file; when a
`categoryId` is supplied and the fetched user is a non-admin, deny when
the user's permission row on that category is absent or `none`; otherwise
insert and return the metadata row. -/
def postFilesUploadRoute (s : Storage) (userId newId : Nat)
    (req : Option UploadRequest) : UploadResponse × Storage :=
  match req with
  | none => (.badRequest, s)
  | some r =>
    let gate : Bool :=
      match r.categoryId with
      | some cid =>
        match getUser s userId with
        | some u =>
          if u.role != "admin" then
            match getUserCategoryPermission s userId cid with
            | none => false
            | some p => p.permissionType != "none"
          else true
        | none => true
      | none => true
    if gate then
      let f : KFile :=
        { id := newId, filename := r.originalname,
          originalName := r.originalname, filePath := r.path,
          fileType := r.mimetype, fileSize := r.size,
          uploadedBy := some userId, articleId := r.articleId,
          categoryId := r.categoryId }
      (.created f, { s with files := s.files ++ [f] })
    else (.forbidden, s)

/-- Data accepted by `insertPermissionSchema`. -/
structure InsertPermission where
  userId : Nat
  categoryId : Nat
  permissionType : String
  deriving DecidableEq

/-- Whether a permission row sits on the (userId, categoryId) key of the
insert data — the `user_category_unique` index's notion of conflict. -/
def permKeyMatch (d : InsertPermission) (p : Permission) : Bool :=
  p.userId == d.userId && p.categoryId == d.categoryId

/-- `DatabaseStorage.setUserPermission`: `INSERT ... ON CONFLICT
(user_id, category_id) DO UPDATE SET permission_type`.  When a row with
the same key exists its type is overwritten in place; otherwise a fresh
row is appended. -/
def setUserPermission (s : Storage) (newId : Nat) (d : InsertPermission) :
    Permission × Storage :=
  match s.permissions.find? (permKeyMatch d) with
  | some existing =>
    let updated := { existing with permissionType := d.permissionType }
    (updated,
     { s with permissions := s.permissions.map (fun p =>
        if permKeyMatch d p then { p with permissionType := d.permissionType }
        else p) })
  | none =>
    let fresh : Permission :=
      { id := newId, userId := d.userId, categoryId := d.categoryId,
        permissionType := d.permissionType }
    (fresh, { s with permissions := s.permissions ++ [fresh] })

/-- Well-formedness the schema's constraints guarantee for any reachable
database state: primary keys of `categories` are unique and the
`user_category_unique` index makes (userId, categoryId) unique in
`permissions`. -/
def WF (s : Storage) : Prop :=
  (s.categories.map (fun c => c.id)).Nodup ∧
  s.permissions.Pairwise
    (fun p q => ¬(p.userId = q.userId ∧ p.categoryId = q.categoryId))

instance (s : Storage) : Decidable (WF s) := by
  unfold WF
  infer_instance

/-! ## Password verifier (auth module) -/

/-- JavaScript `String.prototype.startsWith`. -/
def jsStartsWith (s pre : String) : Bool :=
  pre.data.isPrefixOf s.data

/-- Split a character list on `'.'`, as JavaScript `split(".")` does. -/
def splitDot : List Char → List (List Char)
  | [] => [[]]
  | c :: rest =>
    let r := splitDot rest
    if c = '.' then [] :: r
    else
      match r with
      | [] => [[c]]
      | h :: t => (c :: h) :: t

/-- JavaScript `stored.split(".")` as a list of strings. -/
def jsSplitDot (s : String) : List String :=
  (splitDot s.data).map (fun l => String.mk l)

/-- Lower-case hex digit for a value below 16 (`Buffer.toString("hex")`). -/
def hexDigit (n : Nat) : Char :=
  match n with
  | 0 => '0' | 1 => '1' | 2 => '2' | 3 => '3' | 4 => '4'
  | 5 => '5' | 6 => '6' | 7 => '7' | 8 => '8' | 9 => '9'
  | 10 => 'a' | 11 => 'b' | 12 => 'c' | 13 => 'd' | 14 => 'e' | 15 => 'f'
  | _ => '0'

/-- The two hex digits of one byte. -/
def hexByte (b : Nat) : List Char :=
  [hexDigit (b / 16), hexDigit (b % 16)]

/-- `Buffer.toString("hex")`: hex-encode a byte list. -/
def hexEncode (bs : List Nat) : String :=
  String.mk (bs.flatMap hexByte)

/-- Numeric value of a hex digit character, if it is one. -/
def hexVal (c : Char) : Option Nat :=
  if '0' ≤ c ∧ c ≤ '9' then some (c.toNat - 48)
  else if 'a' ≤ c ∧ c ≤ 'f' then some (c.toNat - 87)
  else if 'A' ≤ c ∧ c ≤ 'F' then some (c.toNat - 55)
  else none

/-- `Buffer.from(s, "hex")` on the character list: consume hex-digit
pairs, stopping at the first character pair that is not two hex digits. -/
def hexDecodeAux : List Char → List Nat
  | c1 :: c2 :: rest =>
    match hexVal c1, hexVal c2 with
    | some h, some l => (16 * h + l) :: hexDecodeAux rest
    | _, _ => []
  | _ => []

/-- `Buffer.from(s, "hex")`. -/
def hexDecode (s : String) : List Nat :=
  hexDecodeAux s.data

/-- The bcrypt marker test of `comparePasswords` and the login callback:
the stored value starts with `$2a$`, `$2b$` or `$2y$`. -/
def hasBcryptMarker (stored : String) : Bool :=
  jsStartsWith stored "$2a$" || jsStartsWith stored "$2b$" ||
    jsStartsWith stored "$2y$"

/-- `hashPassword`: derive a key from the password and a random salt and
store it as `hex(derivedKey) ++ "." ++ salt`.  The scrypt derivation and
the random salt are parameters of the embedding. -/
def hashPassword (scrypt : String → String → List Nat) (salt : String)
    (password : String) : String :=
  hexEncode (scrypt password salt) ++ "." ++ salt

/-- `comparePasswords`: empty stored values fail; bcrypt-marked values go
to bcrypt; values containing a dot go to the scrypt hex.salt scheme
(length check, then constant-time byte comparison, hence plain equality
here); anything else falls through to the legacy plaintext comparison
`supplied === stored`.  Every branch of the source that can throw is
wrapped in `try`/`catch` returning `false`, so the embedding is total. -/
def comparePasswords (bcryptCompare : String → String → Bool)
    (scrypt : String → String → List Nat)
    (supplied stored : String) : Bool :=
  if stored = "" then false
  else if hasBcryptMarker stored then bcryptCompare supplied stored
  else if '.' ∈ stored.data then
    let parts := jsSplitDot stored
    let hashed := parts.getD 0 ""
    let salt := parts.getD 1 ""
    if hashed = "" ∨ salt = "" then false
    else
      let hashedBuf := hexDecode hashed
      let suppliedBuf := scrypt supplied salt
      if hashedBuf.length ≠ suppliedBuf.length then false
      else decide (hashedBuf = suppliedBuf)
  else decide (supplied = stored)

/-- Outcome of the passport LocalStrategy verify callback: `done(null,
user)`, `done(null, false)` or `done(error)`. -/
inductive LoginOutcome
  | success (u : User)
  | failure
  | error (msg : String)
  deriving DecidableEq

/-- The LocalStrategy verify callback of `setupAuth`: look the user up by
email, test the password, and when the match came from a bcrypt-stored
hash re-hash under scrypt and persist the upgrade with
`storage.updateUser`.  The persistence write is NOT guarded by its own
`try`/`catch`: when it throws, control reaches the callback's outer
`catch`, which calls `done(error)`.  `updateResult` stands for that
fallible write. -/
def localStrategyVerify (bcryptCompare : String → String → Bool)
    (scrypt : String → String → List Nat)
    (userByEmail : Option User) (password : String)
    (updateResult : Except String Unit) : LoginOutcome :=
  match userByEmail with
  | none => .failure
  | some user =>
    let stored := user.passwordHash
    let isBcrypt := hasBcryptMarker stored
    let ok := comparePasswords bcryptCompare scrypt password stored
    if ok && isBcrypt then
      match updateResult with
      | .error e => .error e
      | .ok _ => if !ok then .failure else .success user
    else
      if !ok then .failure else .success user

/-! ## The consolidated authorization decision

The spec's `canAccess(user, target, operation)` contract (section 4.2)
consolidates the per-route checks of `registerRoutes`.  Each branch below
is the literal decision the corresponding route handler makes once the
target row and the session user row have been fetched. -/

/-- The requested operation of the authorization contract. -/
inductive Operation
  | read
  | write
  | delete
  deriving DecidableEq

/-- A target entity of the authorization contract. -/
inductive Target
  | category (c : Category)
  | article (a : Article)
  | file (f : KFile)
  deriving DecidableEq

/-- The resolved category permission for a nullable category reference:
an SQL equality against NULL matches no row. -/
def resolvedPerm (s : Storage) (userId : Nat) : Option Nat → Option Permission
  | none => none
  | some cid => getUserCategoryPermission s userId cid

/-- The access decision each route makes, per target and operation:
category listing is open to any authenticated user, category mutation is
`requireAdmin`-gated; article read demands a non-`none` resolved
permission, article write is admin or author or `write` permission,
article delete is admin or author only; file read denies a non-admin a
categorized file without a non-`none` permission, file write (upload into
a category) demands a non-`none` permission, file delete is admin,
uploader, or `write` permission on the file's category. -/
def canAccess (s : Storage) (u : User) (t : Target) (op : Operation) : Bool :=
  match t, op with
  | .category _, .read => true
  | .category _, .write => u.role == "admin"
  | .category _, .delete => u.role == "admin"
  | .article a, .read =>
    u.role == "admin" ||
      (match resolvedPerm s u.id a.categoryId with
       | some p => p.permissionType != "none"
       | none => false)
  | .article a, .write =>
    u.role == "admin" || a.authorId == some u.id ||
      (match resolvedPerm s u.id a.categoryId with
       | some p => p.permissionType == "write"
       | none => false)
  | .article a, .delete =>
    u.role == "admin" || a.authorId == some u.id
  | .file f, .read =>
    !(u.role != "admin" && f.categoryId.isSome &&
      (match resolvedPerm s u.id f.categoryId with
       | some p => p.permissionType == "none"
       | none => true))
  | .file f, .write =>
    match f.categoryId with
    | some cid =>
      if u.role != "admin" then
        match getUserCategoryPermission s u.id cid with
        | none => false
        | some p => p.permissionType != "none"
      else true
    | none => true
  | .file f, .delete =>
    u.role == "admin" || f.uploadedBy == some u.id ||
      (f.categoryId.isSome &&
        (match resolvedPerm s u.id f.categoryId with
         | some p => p.permissionType == "write"
         | none => false))

/-! ## Fixtures for counterexamples and witnesses -/

/-- A store holding only one admin user. -/
def adminOnlyStore : Storage :=
  { users := [⟨1, "admin@example.com", "h", "admin"⟩], categories := [],
    articles := [], permissions := [], files := [] }

/-- Category-creation payload used against `adminOnlyStore`. -/
def opsCategoryData : InsertCategory :=
  { name := "Ops", description := none, parentId := none, createdBy := some 1 }

end KB

namespace KB

/-! ## C1: category creation and the implicit creator permission -/

/-- Claim C1 fails on the code: the admin-gated `POST /api/categories`
path creates the category row but zero Permission rows — the store's
permission table stays empty, so there is no row with the creator's id,
the new category's id and type `write`. -/
theorem C1_counterexample :
    (postCategoriesRoute adminOnlyStore 1 7 opsCategoryData).1 =
      .created ⟨7, "Ops", none, none, some 1⟩ ∧
    ((postCategoriesRoute adminOnlyStore 1 7 opsCategoryData).2.permissions.filter
      (fun p => p.userId == 1 && p.categoryId == 7 &&
        p.permissionType == "write")).length = 0 := by
  exact ⟨rfl, rfl⟩

/-- Claim C1 amended: creating a Category through the admin-gated
`POST /api/categories` path appends exactly the category row and leaves
the Permission table unchanged — no `write` Permission row is granted to
the creator. -/
theorem C1_amended (s : Storage) (callerId newId : Nat) (d : InsertCategory)
    (u : User) (hu : getUser s callerId = some u) (hrole : u.role = "admin") :
    (postCategoriesRoute s callerId newId d).2.permissions = s.permissions ∧
    (postCategoriesRoute s callerId newId d).2.categories =
      s.categories ++ [⟨newId, d.name, d.description, d.parentId, d.createdBy⟩] := by
  unfold postCategoriesRoute createCategory
  rw [hu]
  simp [hrole]

/-- Witness for `C1_amended` at a concrete admin-created category. -/
theorem C1_amended_witness :
    (postCategoriesRoute adminOnlyStore 1 7 opsCategoryData).2.permissions =
      adminOnlyStore.permissions ∧
    (postCategoriesRoute adminOnlyStore 1 7 opsCategoryData).2.categories =
      adminOnlyStore.categories ++ [⟨7, "Ops", none, none, some 1⟩] :=
  C1_amended adminOnlyStore 1 7 opsCategoryData
    ⟨1, "admin@example.com", "h", "admin"⟩ rfl rfl

/-! ## C2: the admin role bypasses every permission check -/

/-- Claim C2: for an admin user, the access decision of every route is
true, for every target entity and operation — the Permission table is
never consulted against an admin. -/
theorem C2_admin_bypass (s : Storage) (u : User) (t : Target) (op : Operation)
    (h : u.role = "admin") : canAccess s u t op = true := by
  cases t <;> cases op <;> simp [canAccess, h]
  rename_i f
  cases f.categoryId <;> rfl

/-- Witness for `C2_admin_bypass` on a concrete target. -/
theorem C2_admin_bypass_witness :
    ((⟨1, "admin@example.com", "h", "admin"⟩ : User).role = "admin") ∧
    canAccess adminOnlyStore ⟨1, "admin@example.com", "h", "admin"⟩
      (.category ⟨7, "Ops", none, none, some 1⟩) .write = true :=
  ⟨rfl, C2_admin_bypass adminOnlyStore ⟨1, "admin@example.com", "h", "admin"⟩
    (.category ⟨7, "Ops", none, none, some 1⟩) .write rfl⟩

/-! ## C3: the upload gate -/

/-- A store with one non-admin user holding a `read` permission on
category 5. -/
def readPermStore : Storage :=
  { users := [⟨2, "user@example.com", "h", "user"⟩], categories := [],
    articles := [], permissions := [⟨1, 2, 5, "read"⟩], files := [] }

/-- Multipart payload targeting category 5. -/
def uploadIntoCat5 : UploadRequest :=
  { originalname := "a.txt", path := "uploads/x", mimetype := "text/plain",
    size := 3, articleId := none, categoryId := some 5 }

/-- Claim C3 fails on the code: a non-admin whose resolved permission on
the supplied category is `read` — not `write` — still uploads
successfully, because the handler only rejects an absent or `none`
permission. -/
theorem C3_counterexample :
    (postFilesUploadRoute readPermStore 2 9 (some uploadIntoCat5)).1 =
      .created ⟨9, "a.txt", "a.txt", "uploads/x", "text/plain", 3,
        some 2, none, some 5⟩ ∧
    getUserCategoryPermission readPermStore 2 5 = some ⟨1, 2, 5, "read"⟩ ∧
    ("read" : String) ≠ "write" := by
  refine ⟨rfl, rfl, by decide⟩

/-- Claim C3 amended: for an authenticated non-admin user and an upload
that supplies a `categoryId`, the upload succeeds iff the user's resolved
permission row on that category exists and its type is not `none` — a
`read` permission suffices; `write` is not required. -/
theorem C3_amended (s : Storage) (userId newId cid : Nat) (r : UploadRequest)
    (u : User) (hcid : r.categoryId = some cid)
    (hu : getUser s userId = some u) (hrole : u.role ≠ "admin") :
    ((∃ f, (postFilesUploadRoute s userId newId (some r)).1 = .created f) ↔
      ∃ p, getUserCategoryPermission s userId cid = some p ∧
        p.permissionType ≠ "none") := by
  unfold postFilesUploadRoute
  dsimp only
  rw [hcid, hu]
  dsimp only
  rw [if_pos (show (u.role != "admin") = true by simpa using hrole)]
  cases hp : getUserCategoryPermission s userId cid with
  | none => simp
  | some p =>
    by_cases hn : p.permissionType = "none"
    · simp [hn]
    · simp [hn]

/-- Witness for `C3_amended`: the concrete `read`-permission upload. -/
theorem C3_amended_witness :
    ((∃ f, (postFilesUploadRoute readPermStore 2 9 (some uploadIntoCat5)).1 =
        .created f) ↔
      ∃ p, getUserCategoryPermission readPermStore 2 5 = some p ∧
        p.permissionType ≠ "none") :=
  C3_amended readPermStore 2 9 5 uploadIntoCat5
    ⟨2, "user@example.com", "h", "user"⟩ rfl rfl (by decide)

/-! ## C4: the non-admin category listing -/

/-- A matching join row fixes the permission's key columns. -/
theorem categoriesByUserMatch_key (userId : Nat) (c : Category) (p : Permission)
    (h : categoriesByUserMatch userId c p = true) :
    p.userId = userId ∧ p.categoryId = c.id := by
  simp only [categoriesByUserMatch, Bool.and_eq_true, beq_iff_eq] at h
  exact ⟨h.1.2, h.1.1⟩

/-- Under the `user_category_unique` index at most one permission row
matches a given user and category, so the inner join of
`getCategoriesByUser` contributes each category at most once. -/
theorem filter_match_map_eq (userId : Nat) (c : Category) (l : List Permission)
    (h : l.Pairwise (fun p q =>
      ¬(p.userId = q.userId ∧ p.categoryId = q.categoryId))) :
    (l.filter (categoriesByUserMatch userId c)).map (fun _ => c) =
      if l.any (categoriesByUserMatch userId c) then [c] else [] := by
  induction l with
  | nil => simp
  | cons p t ih =>
    have hp := (List.pairwise_cons.mp h).1
    have ht := (List.pairwise_cons.mp h).2
    by_cases hm : categoriesByUserMatch userId c p = true
    · have htnil : t.filter (categoriesByUserMatch userId c) = [] := by
        refine List.filter_eq_nil_iff.mpr ?_
        intro q hq hmq
        have k1 := categoriesByUserMatch_key userId c p hm
        have k2 := categoriesByUserMatch_key userId c q hmq
        exact hp q hq ⟨k1.1.trans k2.1.symm, k1.2.trans k2.2.symm⟩
      simp [List.filter_cons, hm, htnil, List.any_cons]
    · simp [List.filter_cons, hm, List.any_cons, ih ht]

/-- The inner join, de-duplicated by the unique index, is a filter of the
category table. -/
theorem flatMap_join_eq_filter (cats : List Category) (perms : List Permission)
    (userId : Nat)
    (h : perms.Pairwise (fun p q =>
      ¬(p.userId = q.userId ∧ p.categoryId = q.categoryId))) :
    cats.flatMap (fun c =>
        (perms.filter (categoriesByUserMatch userId c)).map (fun _ => c)) =
      cats.filter (fun c => perms.any (categoriesByUserMatch userId c)) := by
  induction cats with
  | nil => rfl
  | cons c t ih =>
    rw [List.flatMap_cons, List.filter_cons, filter_match_map_eq userId c perms h, ih]
    by_cases ha : perms.any (categoriesByUserMatch userId c) = true
    · simp [ha]
    · simp [ha]

/-- `getCategoriesByUser` returns exactly the categories on which the
user holds a `read`, `write` or `admin` permission row, each once. -/
theorem getCategoriesByUser_eq_filter (s : Storage) (userId : Nat)
    (h : s.permissions.Pairwise (fun p q =>
      ¬(p.userId = q.userId ∧ p.categoryId = q.categoryId))) :
    getCategoriesByUser s userId =
      s.categories.filter (fun c =>
        s.permissions.any (categoriesByUserMatch userId c)) :=
  flatMap_join_eq_filter s.categories s.permissions userId h

/-- A store whose single non-admin user created the only category but
holds no permission row at all. -/
def creatorOnlyStore : Storage :=
  { users := [⟨1, "user@example.com", "h", "user"⟩],
    categories := [⟨10, "Ops", none, none, some 1⟩],
    articles := [], permissions := [], files := [] }

/-- Claim C4 fails on the code: the non-admin creator of a category with
no permission row receives an empty listing from `GET /api/categories` —
the query has no "created by the user" clause, so a created-but-ungranted
category is omitted, contradicting "rows the user created or holds a
non-`none` permission on". -/
theorem C4_counterexample :
    getCategoriesRoute creatorOnlyStore 1 = .ok [] ∧
    (⟨10, "Ops", none, none, some 1⟩ : Category) ∈ creatorOnlyStore.categories ∧
    (⟨10, "Ops", none, none, some 1⟩ : Category).createdBy = some 1 ∧
    getUser creatorOnlyStore 1 = some ⟨1, "user@example.com", "h", "user"⟩ ∧
    (⟨1, "user@example.com", "h", "user"⟩ : User).role ≠ "admin" := by
  refine ⟨rfl, by decide, rfl, rfl, by decide⟩

/-- Claim C4 amended: for an admin `GET /api/categories` returns all
category rows; for a non-admin it returns exactly the rows on which the
user holds a Permission row whose type is `read`, `write` or `admin`
(each table row at most once, by the unique index); being the creator of
a category grants no visibility by itself. -/
theorem C4_amended (s : Storage) (userId : Nat) (u : User)
    (hWF : WF s) (hu : getUser s userId = some u) :
    (u.role = "admin" → getCategoriesRoute s userId = .ok s.categories) ∧
    (u.role ≠ "admin" →
      getCategoriesRoute s userId =
        .ok (s.categories.filter (fun c =>
          s.permissions.any (categoriesByUserMatch userId c)))) := by
  constructor
  · intro hr
    unfold getCategoriesRoute
    rw [hu]
    simp [hr, getCategories]
  · intro hr
    unfold getCategoriesRoute
    rw [hu]
    have hb : (u.role == "admin") = false := by simpa using hr
    simp only [hb, Bool.false_eq_true, if_false]
    rw [getCategoriesByUser_eq_filter s userId hWF.2]

/-- A store exercising the permission join: user 2 holds `read` on
category 5 and nothing on category 6. -/
def permJoinStore : Storage :=
  { users := [⟨2, "user@example.com", "h", "user"⟩],
    categories := [⟨5, "Docs", none, none, some 1⟩, ⟨6, "Sec", none, none, some 2⟩],
    articles := [], permissions := [⟨1, 2, 5, "read"⟩], files := [] }

/-- Witness for `C4_amended` on `permJoinStore`. -/
theorem C4_amended_witness :
    ((⟨2, "user@example.com", "h", "user"⟩ : User).role = "admin" →
      getCategoriesRoute permJoinStore 2 = .ok permJoinStore.categories) ∧
    ((⟨2, "user@example.com", "h", "user"⟩ : User).role ≠ "admin" →
      getCategoriesRoute permJoinStore 2 =
        .ok (permJoinStore.categories.filter (fun c =>
          permJoinStore.permissions.any (categoriesByUserMatch 2 c)))) :=
  C4_amended permJoinStore 2 ⟨2, "user@example.com", "h", "user"⟩
    (by constructor <;> decide) rfl

/-! ## C8: upsert semantics of `setUserPermission` -/

/-- A key-matching row agrees with the insert data on both key columns. -/
theorem permKeyMatch_key (d : InsertPermission) (p : Permission)
    (h : permKeyMatch d p = true) :
    p.userId = d.userId ∧ p.categoryId = d.categoryId := by
  simpa [permKeyMatch, Bool.and_eq_true, beq_iff_eq] using h

/-- Under the unique index, at most one row matches a given key. -/
theorem filter_key_len_le_one (l : List Permission)
    (hl : l.Pairwise (fun p q =>
      ¬(p.userId = q.userId ∧ p.categoryId = q.categoryId)))
    (d : InsertPermission) :
    (l.filter (permKeyMatch d)).length ≤ 1 := by
  induction l with
  | nil => simp
  | cons p t ih =>
    have hp := (List.pairwise_cons.mp hl).1
    have ht := (List.pairwise_cons.mp hl).2
    by_cases hm : permKeyMatch d p = true
    · have htnil : t.filter (permKeyMatch d) = [] := by
        refine List.filter_eq_nil_iff.mpr ?_
        intro q hq hmq
        have k1 := permKeyMatch_key d p hm
        have k2 := permKeyMatch_key d q hmq
        exact hp q hq ⟨k1.1.trans k2.1.symm, k1.2.trans k2.2.symm⟩
      simp [List.filter_cons, hm, htnil]
    · simp only [List.filter_cons, hm, if_false, Bool.false_eq_true]
      exact ih ht

/-- After one upsert the key holds exactly one row, carrying the upserted
type (the pre-existing row's id when there was a conflict, the fresh id
otherwise). -/
theorem setUserPermission_filter (s : Storage) (nid : Nat) (d : InsertPermission)
    (h : (s.permissions.filter (permKeyMatch d)).length ≤ 1) :
    ∃ i, (setUserPermission s nid d).2.permissions.filter (permKeyMatch d) =
      [⟨i, d.userId, d.categoryId, d.permissionType⟩] := by
  unfold setUserPermission
  cases hf : s.permissions.find? (permKeyMatch d) with
  | none =>
    refine ⟨nid, ?_⟩
    have hnil : s.permissions.filter (permKeyMatch d) = [] := by
      refine List.filter_eq_nil_iff.mpr ?_
      intro q hq hmq
      exact (List.find?_eq_none.mp hf q hq) hmq
    dsimp only
    rw [List.filter_append, hnil]
    simp [permKeyMatch]
  | some ex =>
    dsimp only
    have hmem : ex ∈ s.permissions := List.mem_of_find?_eq_some hf
    have hpred : permKeyMatch d ex = true := List.find?_some hf
    have hcong : ∀ p ∈ s.permissions,
        permKeyMatch d (if permKeyMatch d p then
          { p with permissionType := d.permissionType } else p) =
          permKeyMatch d p := by
      intro p _
      by_cases hm : permKeyMatch d p = true
      · simp only [hm, if_true]
        simpa [permKeyMatch] using hm
      · simp [hm]
    rw [List.filter_map]
    simp only [Function.comp_def]
    rw [List.filter_congr hcong]
    have hmemf : ex ∈ s.permissions.filter (permKeyMatch d) :=
      List.mem_filter.mpr ⟨hmem, hpred⟩
    have hlen1 : (s.permissions.filter (permKeyMatch d)).length = 1 := by
      have hpos : 0 < (s.permissions.filter (permKeyMatch d)).length :=
        List.length_pos.mpr (List.ne_nil_of_mem hmemf)
      omega
    obtain ⟨a, ha⟩ := List.length_eq_one.mp hlen1
    rw [ha]
    have hamem : a ∈ s.permissions.filter (permKeyMatch d) := by
      rw [ha]; exact List.mem_singleton.mpr rfl
    have hak : permKeyMatch d a = true := (List.mem_filter.mp hamem).2
    have k := permKeyMatch_key d a hak
    refine ⟨a.id, ?_⟩
    simp only [List.map_cons, List.map_nil, hak, if_true]
    cases a with
    | mk i uid cid pt =>
      simp only at k
      rw [k.1, k.2]

/-- Claim C8: setting a Permission for a pair (u, c) twice with two types
leaves exactly one row for that pair, and its type is the later value —
the second upsert overwrites the first, no duplicate row appears. -/
theorem C8_upsert (s : Storage) (hWF : WF s) (u c : Nat) (t1 t2 : String)
    (id1 id2 : Nat) (_hne : t1 ≠ t2) :
    (((setUserPermission (setUserPermission s id1 ⟨u, c, t1⟩).2 id2
        ⟨u, c, t2⟩).2.permissions.filter
      (permKeyMatch ⟨u, c, t2⟩)).map (fun p => p.permissionType)) = [t2] := by
  have h1 : (s.permissions.filter (permKeyMatch ⟨u, c, t1⟩)).length ≤ 1 :=
    filter_key_len_le_one _ hWF.2 _
  obtain ⟨i, hi⟩ := setUserPermission_filter s id1 ⟨u, c, t1⟩ h1
  have hpred : permKeyMatch (⟨u, c, t2⟩ : InsertPermission) =
      permKeyMatch (⟨u, c, t1⟩ : InsertPermission) := rfl
  have h2 : (((setUserPermission s id1 ⟨u, c, t1⟩).2.permissions.filter
      (permKeyMatch ⟨u, c, t2⟩)).length ≤ 1) := by
    rw [hpred, hi]
    simp
  obtain ⟨j, hj⟩ := setUserPermission_filter _ id2 ⟨u, c, t2⟩ h2
  rw [hj]
  rfl

/-- Witness for `C8_upsert`: empty store, first `read` then `write`. -/
theorem C8_upsert_witness :
    (((setUserPermission (setUserPermission
        ⟨[], [], [], [], []⟩ 5 ⟨1, 2, "read"⟩).2 6
        ⟨1, 2, "write"⟩).2.permissions.filter
      (permKeyMatch ⟨1, 2, "write"⟩)).map (fun p => p.permissionType)) =
      ["write"] :=
  C8_upsert ⟨[], [], [], [], []⟩ (by constructor <;> decide) 1 2 "read" "write"
    5 6 (by decide)

/-! ## C9: file listing versus single-file fetch -/

/-- Claim C9: `GET /api/files` with no query parameters returns every
file row for any authenticated caller — the handler consults neither the
caller's role nor the permission table — while `GET /api/files/:id`
returns 403 to a non-admin whose permission row on the file's category is
absent or of type `none`. -/
theorem C9_files_listing (s : Storage) (userId fid cid : Nat) (f : KFile)
    (u : User) (hf : getFile s fid = some f) (hu : getUser s userId = some u)
    (hrole : u.role ≠ "admin") (hcid : f.categoryId = some cid)
    (hperm : ∀ p ∈ s.permissions, p.userId = userId → p.categoryId = cid →
      p.permissionType = "none") :
    getFilesRoute s none none = s.files ∧
    getFileRoute s userId fid = .forbidden := by
  refine ⟨rfl, ?_⟩
  unfold getFileRoute
  rw [hf]
  dsimp only
  rw [hu]
  dsimp only
  rw [if_pos (show (u.role != "admin") = true by simpa using hrole)]
  rw [hcid]
  dsimp only
  cases hp : getUserCategoryPermission s userId cid with
  | none => rfl
  | some p =>
    have hmem : p ∈ s.permissions := List.mem_of_find?_eq_some hp
    have hpred := List.find?_some hp
    simp only [Bool.and_eq_true, beq_iff_eq] at hpred
    have hnone := hperm p hmem hpred.1 hpred.2
    simp [hnone]

/-- A store for the C9 witness: a non-admin user, a categorized file, an
unrelated permission row of type `none` on that category. -/
def filesStore : Storage :=
  { users := [⟨2, "user@example.com", "h", "user"⟩], categories := [],
    articles := [],
    permissions := [⟨1, 2, 5, "none"⟩],
    files := [⟨9, "a.txt", "a.txt", "uploads/x", "text/plain", 3,
      some 1, none, some 5⟩] }

/-- Witness for `C9_files_listing` on `filesStore`. -/
theorem C9_files_listing_witness :
    getFilesRoute filesStore none none = filesStore.files ∧
    getFileRoute filesStore 2 9 = .forbidden :=
  C9_files_listing filesStore 2 9 5
    ⟨9, "a.txt", "a.txt", "uploads/x", "text/plain", 3, some 1, none, some 5⟩
    ⟨2, "user@example.com", "h", "user"⟩ rfl rfl (by decide) rfl (by decide)

/-! ## C10: unpublished articles in the default listing -/

/-- Claim C10: `GET /api/articles` with neither `search` nor `categoryId`
gives an admin every article row, and gives a non-admin the published
rows run through the category-permission post-filter — so every article a
non-admin receives has `isPublished = true`, and an unpublished article
never appears in a non-admin's listing, its own author included. -/
theorem C10_default_listing (s : Storage) (userId : Nat) (u : User)
    (hu : getUser s userId = some u) :
    (u.role = "admin" → getArticlesRoute s userId none none = .ok s.articles) ∧
    (u.role ≠ "admin" → ∃ l, getArticlesRoute s userId none none = .ok l ∧
      l = articlePermFilter s userId (getPublishedArticles s) ∧
      ∀ a ∈ l, a.isPublished = true) := by
  constructor
  · intro hr
    unfold getArticlesRoute
    rw [hu]
    simp [hr, getArticles]
  · intro hr
    unfold getArticlesRoute
    rw [hu]
    have hb : (u.role == "admin") = false := by simpa using hr
    simp only [hb, Bool.false_eq_true, if_false, bne, Bool.not_false, if_true]
    refine ⟨_, rfl, rfl, ?_⟩
    intro a ha
    unfold articlePermFilter at ha
    have hmem := List.mem_filter.mp ha
    have hpub := List.mem_filter.mp hmem.1
    simpa using hpub.2

/-- A store for the C10 witness: a non-admin author with an unpublished
article in a category the author can write. -/
def draftStore : Storage :=
  { users := [⟨2, "user@example.com", "h", "user"⟩],
    categories := [⟨5, "Docs", none, none, some 1⟩],
    articles := [⟨20, "Draft", "wip", some 5, some 2, false⟩],
    permissions := [⟨1, 2, 5, "write"⟩], files := [] }

/-- Witness for `C10_default_listing` on `draftStore`. -/
theorem C10_default_listing_witness :
    (((⟨2, "user@example.com", "h", "user"⟩ : User).role = "admin" →
      getArticlesRoute draftStore 2 none none = .ok draftStore.articles)) ∧
    ((⟨2, "user@example.com", "h", "user"⟩ : User).role ≠ "admin" →
      ∃ l, getArticlesRoute draftStore 2 none none = .ok l ∧
        l = articlePermFilter draftStore 2 (getPublishedArticles draftStore) ∧
        ∀ a ∈ l, a.isPublished = true) :=
  C10_default_listing draftStore 2 ⟨2, "user@example.com", "h", "user"⟩ rfl

/-! ## C5: failure of the lazy bcrypt-to-scrypt upgrade write -/

/-- Claim C5 fails on the code: when a login verifies against a
bcrypt-stored hash and the subsequent hash-upgrade write throws, nothing
catches the exception before the verify callback's outer catch, which
calls `done(error)` — the login errors out instead of succeeding. -/
theorem C5_counterexample :
    localStrategyVerify (fun _ _ => true) (fun _ _ => [])
      (some ⟨1, "a@b.c", "$2b$10$x", "user"⟩) "pw" (.error "db write failed") =
      .error "db write failed" ∧
    ∀ u, localStrategyVerify (fun _ _ => true) (fun _ _ => [])
      (some ⟨1, "a@b.c", "$2b$10$x", "user"⟩) "pw" (.error "db write failed") ≠
      .success u := by
  refine ⟨rfl, fun u h => ?_⟩
  rw [show localStrategyVerify (fun _ _ => true) (fun _ _ => ([] : List Nat))
      (some ⟨1, "a@b.c", "$2b$10$x", "user"⟩) "pw" (.error "db write failed") =
      .error "db write failed" from rfl] at h
  exact LoginOutcome.noConfusion h

/-- Claim C5 amended: when the password verifies against a bcrypt-stored
hash, the login outcome follows the upgrade write — a failing write
surfaces as `done(error)` (the failure is neither logged-and-swallowed
nor bypassed), and only a successful write lets the login succeed. -/
theorem C5_amended (bc : String → String → Bool)
    (sc : String → String → List Nat) (u : User) (pw e : String)
    (hb : hasBcryptMarker u.passwordHash = true)
    (hok : comparePasswords bc sc pw u.passwordHash = true) :
    localStrategyVerify bc sc (some u) pw (.error e) = .error e ∧
    localStrategyVerify bc sc (some u) pw (.ok ()) = .success u := by
  unfold localStrategyVerify
  simp [hb, hok]

/-- Witness for `C5_amended` at a concrete bcrypt credential. -/
theorem C5_amended_witness :
    localStrategyVerify (fun _ _ => true) (fun _ _ => [])
      (some ⟨1, "a@b.c", "$2b$10$x", "user"⟩) "pw" (.error "boom") =
      .error "boom" ∧
    localStrategyVerify (fun _ _ => true) (fun _ _ => [])
      (some ⟨1, "a@b.c", "$2b$10$x", "user"⟩) "pw" (.ok ()) =
      .success ⟨1, "a@b.c", "$2b$10$x", "user"⟩ :=
  C5_amended (fun _ _ => true) (fun _ _ => [])
    ⟨1, "a@b.c", "$2b$10$x", "user"⟩ "pw" "boom" rfl rfl

/-! ## C6: malformed stored values -/

/-- Claim C6 fails on the code: a stored value that parses as neither
scheme falls through to the legacy plaintext comparison, so verification
returns true — not false — when the supplied password equals the stored
string. -/
theorem C6_counterexample :
    hasBcryptMarker "legacyplain" = false ∧
    ('.' ∈ "legacyplain".data → False) ∧
    comparePasswords (fun _ _ => false) (fun _ _ => []) "legacyplain"
      "legacyplain" = true := by
  refine ⟨rfl, by decide, rfl⟩

/-- Claim C6 amended: for a malformed stored value (no bcrypt marker, no
dot) verification never throws — the embedding is total and every
fallible source branch is caught — and it returns true exactly when the
stored value is nonempty and equal to the supplied password (the legacy
plaintext fallback); in particular it returns false whenever the supplied
password differs from the stored string. -/
theorem C6_amended (bc : String → String → Bool)
    (sc : String → String → List Nat) (supplied stored : String)
    (h1 : hasBcryptMarker stored = false) (h2 : '.' ∉ stored.data) :
    comparePasswords bc sc supplied stored =
      (!(stored == "") && (supplied == stored)) := by
  unfold comparePasswords
  by_cases he : stored = ""
  · simp [he]
  · rw [if_neg he, h1]
    simp only [Bool.false_eq_true, if_false]
    rw [if_neg h2]
    by_cases hs : supplied = stored
    · simp [hs, he]
    · simp [hs, he]

/-- Witness for `C6_amended`: the plaintext-fallback hit. -/
theorem C6_amended_witness :
    comparePasswords (fun _ _ => false) (fun _ _ => []) "abc" "abc" =
      (!(("abc" : String) == "") && (("abc" : String) == "abc")) :=
  C6_amended (fun _ _ => false) (fun _ _ => []) "abc" "abc" rfl (by decide)

/-! ## C7: round-trip of the scrypt hex.salt scheme -/

/-- Hex digits are valid hex characters for `hexVal`. -/
theorem hexVal_hexDigit (n : Nat) (hn : n < 16) : hexVal (hexDigit n) = some n := by
  interval_cases n <;> decide

/-- A hex digit is never the dot delimiter. -/
theorem hexDigit_ne_dot (n : Nat) (hn : n < 16) : hexDigit n ≠ '.' := by
  interval_cases n <;> decide

/-- A hex digit is never the bcrypt marker's dollar sign. -/
theorem hexDigit_ne_dollar (n : Nat) (hn : n < 16) : hexDigit n ≠ '$' := by
  interval_cases n <;> decide

/-- The hex encoding of a byte list contains no dot. -/
theorem not_dot_mem_hexBytes (bs : List Nat) (h : ∀ b ∈ bs, b < 256) :
    '.' ∉ bs.flatMap hexByte := by
  induction bs with
  | nil => simp
  | cons b t ih =>
    have hb := h b (List.mem_cons_self b t)
    intro hmem
    rw [List.flatMap_cons] at hmem
    rcases List.mem_append.mp hmem with h1 | h2
    · rcases List.mem_cons.mp h1 with e | h1
      · exact hexDigit_ne_dot (b / 16) (by omega) e.symm
      · rcases List.mem_cons.mp h1 with e | h1
        · exact hexDigit_ne_dot (b % 16) (by omega) e.symm
        · exact absurd h1 (List.not_mem_nil _)
    · exact ih (fun x hx => h x (List.mem_cons_of_mem _ hx)) h2

/-- Hex decoding inverts hex encoding on genuine byte lists. -/
theorem hexDecodeAux_flatMap (bs : List Nat) (h : ∀ b ∈ bs, b < 256) :
    hexDecodeAux (bs.flatMap hexByte) = bs := by
  induction bs with
  | nil => rfl
  | cons b t ih =>
    have hb := h b (List.mem_cons_self b t)
    rw [List.flatMap_cons]
    show hexDecodeAux
      (hexDigit (b / 16) :: hexDigit (b % 16) :: t.flatMap hexByte) = b :: t
    unfold hexDecodeAux
    rw [hexVal_hexDigit _ (by omega), hexVal_hexDigit _ (by omega)]
    dsimp only
    rw [ih (fun x hx => h x (List.mem_cons_of_mem _ hx))]
    congr 1
    omega

/-- `hexDecode` inverts `hexEncode` on genuine byte lists. -/
theorem hexDecode_hexEncode (bs : List Nat) (h : ∀ b ∈ bs, b < 256) :
    hexDecode (hexEncode bs) = bs :=
  hexDecodeAux_flatMap bs h

/-- String concatenation concatenates the character lists. -/
theorem string_data_append (a b : String) : (a ++ b).data = a.data ++ b.data :=
  rfl

/-- A dot-free character list splits into itself alone. -/
theorem splitDot_no_dot (l : List Char) (h : '.' ∉ l) : splitDot l = [l] := by
  induction l with
  | nil => rfl
  | cons c t ih =>
    have hc : c ≠ '.' := fun e => h (e ▸ List.mem_cons_self c t)
    have ht : '.' ∉ t := fun m => h (List.mem_cons_of_mem _ m)
    simp only [splitDot]
    rw [if_neg hc, ih ht]

/-- Splitting around the first dot of `xs ++ '.' :: ys` when `xs` is
dot-free. -/
theorem splitDot_append (xs ys : List Char) (h : '.' ∉ xs) :
    splitDot (xs ++ '.' :: ys) = xs :: splitDot ys := by
  induction xs with
  | nil =>
    simp [splitDot]
  | cons c t ih =>
    have hc : c ≠ '.' := fun e => h (e ▸ List.mem_cons_self c t)
    have ht : '.' ∉ t := fun m => h (List.mem_cons_of_mem _ m)
    simp only [List.cons_append, splitDot]
    rw [if_neg hc]
    simp only [List.append_eq]
    rw [ih ht]

/-- The character list of a freshly hashed password: the hex-encoded
derived key, a dot, the salt. -/
theorem hashPassword_data (scrypt : String → String → List Nat)
    (salt p : String) :
    (hashPassword scrypt salt p).data =
      ((scrypt p salt).flatMap hexByte) ++ '.' :: salt.data := by
  show ((hexEncode (scrypt p salt) ++ "." ++ salt)).data = _
  rw [string_data_append, string_data_append]
  simp [hexEncode, List.append_assoc]

/-- On a stored value freshly produced by `hashPassword`,
`comparePasswords` reduces to the length check and byte comparison of the
supplied password's derived key against the stored derived key. -/
theorem comparePasswords_hashPassword (bc : String → String → Bool)
    (scrypt : String → String → List Nat) (salt p supplied : String)
    (hnil : scrypt p salt ≠ [])
    (hbytes : ∀ b ∈ scrypt p salt, b < 256)
    (hsalt1 : salt ≠ "") (hsalt2 : '.' ∉ salt.data) :
    comparePasswords bc scrypt supplied (hashPassword scrypt salt p) =
      if (scrypt p salt).length ≠ (scrypt supplied salt).length then false
      else decide (scrypt p salt = scrypt supplied salt) := by
  have hd := hashPassword_data scrypt salt p
  obtain ⟨b, t, hdk⟩ : ∃ b t, scrypt p salt = b :: t := by
    cases hx : scrypt p salt with
    | nil => exact absurd hx hnil
    | cons b t => exact ⟨b, t, rfl⟩
  have hb : b < 256 := hbytes b (hdk ▸ List.mem_cons_self b t)
  have hhead : (hashPassword scrypt salt p).data =
      hexDigit (b / 16) :: (hexDigit (b % 16) ::
        (t.flatMap hexByte ++ '.' :: salt.data)) := by
    rw [hd, hdk, List.flatMap_cons]
    rfl
  have hne_empty : hashPassword scrypt salt p ≠ "" := by
    intro e
    have := congrArg String.data e
    rw [hhead] at this
    exact absurd this (by simp)
  have hmarker : hasBcryptMarker (hashPassword scrypt salt p) = false := by
    unfold hasBcryptMarker jsStartsWith
    rw [hhead]
    have hdol : ('$' == hexDigit (b / 16)) = false :=
      beq_eq_false_iff_ne.mpr (fun e => hexDigit_ne_dollar (b / 16) (by omega) e.symm)
    rw [show ("$2a$" : String).data = ['$', '2', 'a', '$'] from rfl,
        show ("$2b$" : String).data = ['$', '2', 'b', '$'] from rfl,
        show ("$2y$" : String).data = ['$', '2', 'y', '$'] from rfl]
    simp [List.isPrefixOf, hdol]
  have hdot : '.' ∈ (hashPassword scrypt salt p).data := by
    rw [hd]
    exact List.mem_append_right _ (List.mem_cons_self _ _)
  have hsplit : jsSplitDot (hashPassword scrypt salt p) =
      [hexEncode (scrypt p salt), salt] := by
    unfold jsSplitDot
    rw [hd, splitDot_append _ _ (not_dot_mem_hexBytes _ hbytes),
        splitDot_no_dot _ hsalt2]
    rfl
  have hhexne : hexEncode (scrypt p salt) ≠ "" := by
    intro e
    have := congrArg String.data e
    rw [show (hexEncode (scrypt p salt)).data = (scrypt p salt).flatMap hexByte
        from rfl, hdk, List.flatMap_cons] at this
    exact absurd this (by simp [hexByte])
  unfold comparePasswords
  rw [if_neg hne_empty, hmarker]
  simp only [Bool.false_eq_true, if_false]
  rw [if_pos hdot]
  rw [hsplit]
  simp only [List.getD, List.get?_cons_zero, List.get?_cons_succ,
    Option.getD_some]
  rw [if_neg (by
    push_neg
    exact ⟨hhexne, hsalt1⟩)]
  simp only [hexDecode_hexEncode _ hbytes]

/-- Claim C7: with the scrypt derivation treated as an abstract key
derivation whose output at the given salt is 64 bytes and collides on no
other password, `verify(p, hash(p))` is true and `verify(wrong, hash(p))`
is false for any `wrong ≠ p`. -/
theorem C7_roundtrip (bc : String → String → Bool)
    (scrypt : String → String → List Nat) (salt p wrong : String)
    (hlen : (scrypt p salt).length = 64)
    (hbytes : ∀ b ∈ scrypt p salt, b < 256)
    (hsalt1 : salt ≠ "") (hsalt2 : '.' ∉ salt.data)
    (_hne : wrong ≠ p)
    (hcoll : scrypt wrong salt ≠ scrypt p salt) :
    comparePasswords bc scrypt p (hashPassword scrypt salt p) = true ∧
    comparePasswords bc scrypt wrong (hashPassword scrypt salt p) = false := by
  have hnil : scrypt p salt ≠ [] := by
    intro e
    rw [e] at hlen
    simp at hlen
  constructor
  · rw [comparePasswords_hashPassword bc scrypt salt p p hnil hbytes hsalt1 hsalt2]
    simp
  · rw [comparePasswords_hashPassword bc scrypt salt p wrong hnil hbytes hsalt1 hsalt2]
    by_cases hl : (scrypt p salt).length = (scrypt wrong salt).length
    · rw [if_neg (by simp [hl])]
      exact decide_eq_false (fun e => hcoll e.symm)
    · simp [hl]

/-- Witness for `C7_roundtrip` with a concrete derivation function. -/
theorem C7_roundtrip_witness :
    comparePasswords (fun _ _ => false)
      (fun q _ => List.replicate 64 (if q = "pw" then 1 else 2)) "pw"
      (hashPassword (fun q _ => List.replicate 64 (if q = "pw" then 1 else 2))
        "ab" "pw") = true ∧
    comparePasswords (fun _ _ => false)
      (fun q _ => List.replicate 64 (if q = "pw" then 1 else 2)) "x"
      (hashPassword (fun q _ => List.replicate 64 (if q = "pw" then 1 else 2))
        "ab" "pw") = false :=
  C7_roundtrip (fun _ _ => false)
    (fun q _ => List.replicate 64 (if q = "pw" then 1 else 2)) "ab" "pw" "x"
    (by decide) (by decide) (by decide) (by decide) (by decide) (by decide)

end KB
